import Mathlib

/-!
Verification development for the validator spawner core
(`src/validator/validator_spawner.go`): the one-shot future, the spawner
launch/room accounting, the execution loop, the input-feeding sequence, the
preimage artifact stream, and the challenge-backend constructor, shallowly
embedded in Lean 4.

External collaborators that the spawner file only calls (the opaque execution
machine, the stopwaiter lifecycle primitive, the machine loader) are modelled
as oracles or from the specification text, as marked on each definition.
-/

namespace NitroValidator

/-- Content hashes (`common.Hash`), modelled abstractly as naturals. -/
abbrev Hash := Nat

/-- Raw byte strings, modelled as lists of naturals; a well-formed byte has
value below 256. -/
abbrev Bytes := List Nat

/-- Modelled from the spec: the Checkpoint value type
(`GoGlobalState \x7bblockHash, batchNumber, positionInBatch\x7d`), whose Go
definition is outside `src/`. Immutable value compared by equality. -/
structure GoGlobalState where
  BlockHash : Hash
  Batch : Nat
  PosInBatch : Nat
deriving DecidableEq, Repr

/-- The Go zero value `GoGlobalState\x7b\x7d`. -/
def GoGlobalState.zero : GoGlobalState := ⟨0, 0, 0⟩

/-- Modelled from the spec: one sequencer batch message
(`\x7bnumber, rawBytes\x7d`); the Go struct is outside `src/`. -/
structure BatchInfo where
  Number : Nat
  Data : Bytes
deriving DecidableEq, Repr

/-- Modelled from the spec: the `ValidationInput` value (id, start state,
ordered batch messages, optional delayed message, preimage mapping); its Go
definition is outside `src/`. The preimage mapping is modelled as an
association list whose list order is the iteration order of the Go map. -/
structure ValidationInput where
  Id : Nat
  StartState : GoGlobalState
  BatchInfo : List BatchInfo
  HasDelayedMsg : Bool
  DelayedMsgNr : Nat
  DelayedMsg : Bytes
  Preimages : List (Hash × Bytes)
deriving DecidableEq, Repr

/-- Go errors: either a fresh error (`errors.New msg`) or a wrapping error
(`fmt.Errorf "msg: %w" inner`). -/
inductive GoErr where
  | new (msg : String)
  | wrap (msg : String) (inner : GoErr)
deriving DecidableEq, Repr

/-- The sentinel `ErrNotReady = errors.New("not ready")`. -/
def ErrNotReady : GoErr := .new "not ready"

/-! ## One-shot future: `readyMarker` and `valRun` -/

/-- State of a `readyMarker`: whether `chanReady` has been closed, the value
of the atomic `boolReady` flag (int32, stored as a Bool: zero or nonzero),
and the stored error. -/
structure readyMarker where
  chanClosed : Bool
  boolReady : Bool
  err : Option GoErr
deriving DecidableEq, Repr

/-- A fresh marker (`newReadyMarker`): flag 0, channel open, nil error. -/
def newReadyMarker : readyMarker := ⟨false, false, none⟩

/-- `Ready()` reads the atomic flag. -/
def readyMarker.Ready (d : readyMarker) : Bool := d.boolReady

/-- `signalReady(err)` stores the error, sets the flag and closes the
channel. -/
def readyMarker.signalReady (d : readyMarker) (err : Option GoErr) : readyMarker :=
  { d with err := err, boolReady := true, chanClosed := true }

/-- State of a `valRun`: embedded marker, module root, stored result
(zero-initialized by Go). -/
structure valRun where
  marker : readyMarker
  root : Hash
  result : GoGlobalState
deriving DecidableEq, Repr

/-- `NewvalRun(root)`: fresh marker, zero result. -/
def NewvalRun (root : Hash) : valRun :=
  { marker := newReadyMarker, root := root, result := GoGlobalState.zero }

/-- `Result()`: returns `(GoGlobalState\x7b\x7d, ErrNotReady)` while the flag
is unset, otherwise the stored `(result, err)` pair. -/
def valRun.Result (r : valRun) : GoGlobalState × Option GoErr :=
  if r.marker.Ready then (r.result, r.marker.err)
  else (GoGlobalState.zero, some ErrNotReady)

/-- `WasmModuleRoot()`. -/
def valRun.WasmModuleRoot (r : valRun) : Hash := r.root

/-- `consumeResult(res, err)`: stores the result then signals readiness with
the error. -/
def valRun.consumeResult (r : valRun) (res : GoGlobalState) (err : Option GoErr) : valRun :=
  { r with result := res, marker := r.marker.signalReady err }

/-! ## Opaque machine: load-phase operations and run-phase behavior -/

/-- Modelled from the spec: the mutating operations `loadEntryToMachine`
invokes on an `ArbitratorMachine` clone. The machine itself is an opaque
external capability, so an operation is recorded as an event. -/
inductive MachOp where
  | setPreimageResolver
  | setGlobalState (gs : GoGlobalState)
  | addSequencerInboxMessage (number : Nat) (data : Bytes)
  | addDelayedInboxMessage (number : Nat) (data : Bytes)
deriving DecidableEq, Repr

/-- Modelled from the spec: the outcome each load-phase machine operation
would report, an oracle standing for the opaque machine implementation
(`none` = success, `some e` = the machine returns error `e`). -/
abbrev LoadOracle := MachOp → Option GoErr

/-- Modelled from the spec: the run-phase behavior of a machine under the
fixed step budget used by the loop. A machine is either halted
(`IsRunning() = false`, with its `IsErrored()` flag and final global state),
or running with its next `Step` call failing, or running with its next
`Step` call succeeding and leading to a successor behavior. -/
inductive MachineBehavior where
  | halted (isErrored : Bool) (globalState : GoGlobalState)
  | stepFails (e : GoErr)
  | stepsTo (next : MachineBehavior)
deriving DecidableEq, Repr

/-- Modelled from the spec: a base `ArbitratorMachine` as delivered by the
loader, described by the outcomes of the load-phase operations and by its
run-phase behavior once fed. `Clone` yields an isolated instance with this
same description. -/
structure ArbMachineModel where
  loadOracle : LoadOracle
  behavior : MachineBehavior

/-- The preimage resolver closure installed by `loadEntryToMachine`: looks a
hash up in the entry preimage mapping, failing with
`errors.New("preimage not found")` on a miss. -/
def preimageResolver (entry : ValidationInput) (hash : Hash) : Except GoErr Bytes :=
  match entry.Preimages.lookup hash with
  | some preimage => .ok preimage
  | none => .error (.new "preimage not found")

/-- The batch-feeding loop of `loadEntryToMachine`: invokes
`AddSequencerInboxMessage(batch.Number, batch.Data)` for each batch in order,
aborting at the first failure with the wrapping error
`"error while trying to add sequencer msg for proving: %w"`. Returns the
trace of invoked operations and the error, if any. -/
def feedBatches (oracle : LoadOracle) : List BatchInfo → List MachOp × Option GoErr
  | [] => ([], none)
  | b :: rest =>
    let op := MachOp.addSequencerInboxMessage b.Number b.Data
    match oracle op with
    | some e => ([op], some (.wrap "error while trying to add sequencer msg for proving" e))
    | none =>
      let tail := feedBatches oracle rest
      (op :: tail.1, tail.2)

/-- `loadEntryToMachine(ctx, entry, mach)`: installs the preimage resolver,
sets the start global state, feeds every batch message in order, then feeds
the delayed message exactly when `HasDelayedMsg` holds; each failure aborts
immediately with its stage wrapping. Returns the trace of machine operations
actually invoked, and the error returned to the caller. -/
def loadEntryToMachine (oracle : LoadOracle) (entry : ValidationInput) :
    List MachOp × Option GoErr :=
  match oracle .setPreimageResolver with
  | some e => ([.setPreimageResolver], some e)
  | none =>
    match oracle (.setGlobalState entry.StartState) with
    | some e =>
      ([.setPreimageResolver, .setGlobalState entry.StartState],
        some (.wrap "error while setting global state for proving" e))
    | none =>
      let fed := feedBatches oracle entry.BatchInfo
      let pre := MachOp.setPreimageResolver :: MachOp.setGlobalState entry.StartState :: fed.1
      match fed.2 with
      | some e => (pre, some e)
      | none =>
        if entry.HasDelayedMsg then
          let op := MachOp.addDelayedInboxMessage entry.DelayedMsgNr entry.DelayedMsg
          match oracle op with
          | some e =>
            (pre ++ [op], some (.wrap "error while trying to add delayed msg for proving" e))
          | none => (pre ++ [op], none)
        else (pre, none)

/-! ## Execution loop -/

/-- The fixed per-iteration step budget requested by the loop. -/
def stepBudget : Nat := 500000000

/-- The `for mach.IsRunning()` loop of `execute` together with its post-loop
check: a failing `Step` aborts with
`fmt.Errorf("machine execution failed with error: %w", err)`; once the
machine stops running, an errored machine yields
`errors.New("machine entered errored state during attempted validation")`,
otherwise the final global state is returned. -/
def runLoop : MachineBehavior → Except GoErr GoGlobalState
  | .halted isErrored gs =>
    if isErrored then .error (.new "machine entered errored state during attempted validation")
    else .ok gs
  | .stepFails e => .error (.wrap "machine execution failed with error" e)
  | .stepsTo next => runLoop next

/-- The terminal shape a behavior reaches after its finite run of successful
steps. -/
def MachineBehavior.terminal : MachineBehavior → MachineBehavior
  | .stepsTo next => terminal next
  | b => b

/-- Resource accounting for machine clones created by one operation:
how many clones were created, destroyed, and frozen on the taken path. -/
structure CloneLedger where
  created : Nat
  destroyed : Nat
  frozen : Nat
deriving DecidableEq, Repr

/-- `ArbitratorSpawner.execute(ctx, entry, moduleRoot)` together with its
clone accounting. The loader result stands for
`machineLoader.GetHostIoMachine(ctx, moduleRoot)`. On loader failure the
error is wrapped as `"unabled to get WASM machine: %w"` and no clone exists;
otherwise the base machine is cloned, `defer mach.Destroy()` guarantees
destruction on every later exit, the entry is loaded, and the machine is
stepped to completion. Every failure returns the zero global state. -/
def ArbitratorSpawner.executeWithLedger (loader : Except GoErr ArbMachineModel)
    (entry : ValidationInput) : (GoGlobalState × Option GoErr) × CloneLedger :=
  match loader with
  | .error e => ((GoGlobalState.zero, some (.wrap "unabled to get WASM machine" e)), ⟨0, 0, 0⟩)
  | .ok basemachine =>
    match (loadEntryToMachine basemachine.loadOracle entry).2 with
    | some e => ((GoGlobalState.zero, some e), ⟨1, 1, 0⟩)
    | none =>
      match runLoop basemachine.behavior with
      | .error e => ((GoGlobalState.zero, some e), ⟨1, 1, 0⟩)
      | .ok gs => ((gs, none), ⟨1, 1, 0⟩)

/-- The `(GoGlobalState, error)` pair `execute` returns. -/
def ArbitratorSpawner.execute (loader : Except GoErr ArbMachineModel)
    (entry : ValidationInput) : GoGlobalState × Option GoErr :=
  (ArbitratorSpawner.executeWithLedger loader entry).1

/-! ## Spawner configuration, admission accounting, launch -/

/-- `ArbitratorSpawnerConfig`: concurrency limit, output path, target machine
count. Integers are Go `int` values, modelled as `Int`. -/
structure ArbitratorSpawnerConfig where
  ConcurrentRuns : Int
  OutputPath : String
  TargetMachineCount : Int
deriving DecidableEq, Repr

/-- `DefaultArbitratorSpawnerConfig`. -/
def DefaultArbitratorSpawnerConfig : ArbitratorSpawnerConfig :=
  { ConcurrentRuns := 0, OutputPath := "./target/output", TargetMachineCount := 4 }

/-- `JitSpawnerConfig`: concurrency limit and the Cranelift engine toggle. -/
structure JitSpawnerConfig where
  ConcurrentRuns : Int
  Cranelift : Bool
deriving DecidableEq, Repr

/-- `DefaultJitSpawnerConfig`. -/
def DefaultJitSpawnerConfig : JitSpawnerConfig :=
  { ConcurrentRuns := 0, Cranelift := true }

/-- `ArbitratorSpawner.Name()`. -/
def ArbitratorSpawner.Name : String := "arbitrator"

/-- `JitSpawner.Name()`. -/
def JitSpawner.Name (config : JitSpawnerConfig) : String :=
  if config.Cranelift then "jit-cranelift" else "jit"

/-- Two-complement wraparound of a mathematical integer into the `int32`
range, as performed by Go `int32` arithmetic (the literals are 2 to the 31st
and 2 to the 32nd power). -/
def wrap32 (x : Int) : Int := (x + 2147483648) % 4294967296 - 2147483648

/-- `atomic.AddInt32(&count, delta)`: int32 addition with wraparound. -/
def addInt32 (count delta : Int) : Int := wrap32 (count + delta)

/-- `ArbitratorSpawner.Room()`: the configured limit, with the host CPU
count substituted when the limit is zero, minus the in-flight count. -/
def ArbitratorSpawner.Room (config : ArbitratorSpawnerConfig) (numCPU : Int)
    (count : Int) : Int :=
  let avail := if config.ConcurrentRuns = 0 then numCPU else config.ConcurrentRuns
  avail - count

/-- `JitSpawner.Room()`: same computation over the JIT config. -/
def JitSpawner.Room (config : JitSpawnerConfig) (numCPU : Int) (count : Int) : Int :=
  let avail := if config.ConcurrentRuns = 0 then numCPU else config.ConcurrentRuns
  avail - count

/-- Modelled from the spec: a JIT machine as delivered by the JIT loader;
its `prove(ctx, entry, resolver)` entry point is opaque, described by the
`(state, error)` pair it reports for an entry. -/
structure JitMachineModel where
  prove : ValidationInput → GoGlobalState × Option GoErr

/-- `JitSpawner.execute(ctx, entry, moduleRoot)`: obtain the machine from
the loader (wrapping failure as `"unabled to get WASM machine: %w"`), then
return the pair `machine.prove` reports. -/
def JitSpawner.execute (loader : Except GoErr JitMachineModel)
    (entry : ValidationInput) : GoGlobalState × Option GoErr :=
  match loader with
  | .error e => (GoGlobalState.zero, some (.wrap "unabled to get WASM machine" e))
  | .ok machine => machine.prove entry

/-- The observable effects of one `Launch` call: the run returned to the
caller at call time, the in-flight count right after the synchronous part,
and the run and count once the background task has completed. -/
structure LaunchOutcome where
  run : valRun
  countAfterLaunch : Int
  resolvedRun : valRun
  countAfterCompletion : Int
deriving Repr

/-- `ArbitratorSpawner.Launch(entry, moduleRoot)`: atomically increments the
in-flight count, allocates a fresh run and returns it immediately; the
background thread computes `execute`, feeds the pair to `consumeResult`,
and its deferred decrement restores the count. -/
def ArbitratorSpawner.Launch (count : Int) (loader : Except GoErr ArbMachineModel)
    (entry : ValidationInput) (moduleRoot : Hash) : LaunchOutcome :=
  let c1 := addInt32 count 1
  let run := NewvalRun moduleRoot
  let res := ArbitratorSpawner.execute loader entry
  { run := run
    countAfterLaunch := c1
    resolvedRun := run.consumeResult res.1 res.2
    countAfterCompletion := addInt32 c1 (-1) }

/-- `JitSpawner.Launch(entry, moduleRoot)`: identical structure over the JIT
execute. -/
def JitSpawner.Launch (count : Int) (loader : Except GoErr JitMachineModel)
    (entry : ValidationInput) (moduleRoot : Hash) : LaunchOutcome :=
  let c1 := addInt32 count 1
  let run := NewvalRun moduleRoot
  let res := JitSpawner.execute loader entry
  { run := run
    countAfterLaunch := c1
    resolvedRun := run.consumeResult res.1 res.2
    countAfterCompletion := addInt32 c1 (-1) }

/-- N successive launch increments of the in-flight counter. -/
def iterIncrement : Int → Nat → Int
  | c, 0 => c
  | c, n + 1 => iterIncrement (addInt32 c 1) n

/-- N successive completion decrements of the in-flight counter. -/
def iterDecrement : Int → Nat → Int
  | c, 0 => c
  | c, n + 1 => iterDecrement (addInt32 c (-1)) n

/-! ## Lifecycle: the stopwaiter primitive and `Start` -/

/-- Modelled from the spec: the `stopwaiter.StopWaiter` lifecycle primitive
is not under `src/`. Per the spec a spawner is "constructed idle, `Start`ed
to obtain a cancellable background-task context, `Stop`ped to cancel that
context", so the primitive holds a started flag and the lifecycle context
currently bound (contexts are named abstractly by naturals). -/
structure StopWaiter where
  started : Bool
  ctx : Option Nat
deriving DecidableEq, Repr

/-- Modelled from the spec: `StopWaiter.Start(ctx, parent)` marks the
component started and binds the supplied lifecycle context; the primitive
itself carries no already-started guard (the native backend adds its own
`Started()` guard on top). -/
def StopWaiter.start (s : StopWaiter) (ctxIn : Nat) : StopWaiter :=
  { s with started := true, ctx := some ctxIn }

/-- `Started()` of the stopwaiter primitive. -/
def StopWaiter.Started (s : StopWaiter) : Bool := s.started

/-- `ArbitratorSpawner.Start(ctx_in)`: guarded by `Started()`, so it only
invokes the primitive start when not yet started. -/
def ArbitratorSpawner.Start (s : StopWaiter) (ctxIn : Nat) : StopWaiter :=
  if s.Started then s else s.start ctxIn

/-- `JitSpawner.Start(ctx_in)`: invokes the primitive start unconditionally. -/
def JitSpawner.Start (s : StopWaiter) (ctxIn : Nat) : StopWaiter :=
  s.start ctxIn

/-! ## WaitReady and caller contexts -/

/-- Modelled from the spec: the caller-supplied `context.Context`, reduced
to whether its done channel has fired and the error `ctx.Err()` then
reports. -/
structure CtxState where
  done : Bool
  err : GoErr
deriving DecidableEq, Repr

/-- `WaitReady(ctx)` as the Go `select` over the two channels: it may yield
the stored error once `chanReady` is closed, or the context error once the
context is done; with neither channel ready it blocks and yields nothing.
The marker itself is not modified by waiting. -/
inductive WaitReadyOutcome (d : readyMarker) (ctx : CtxState) : Option GoErr → Prop where
  | viaReady : d.chanClosed = true → WaitReadyOutcome d ctx d.err
  | viaCtx : ctx.done = true → WaitReadyOutcome d ctx (some ctx.err)

/-! ## Challenge backend construction -/

/-- Modelled from the spec: the value
`NewExecutionChallengeBackend(machine, targetMachineCount, nil)` hands to
the bisection protocol: the frozen machine snapshot together with the
configured target machine count. Its internal behavior is out of scope. -/
structure ExecutionChallengeBackend where
  frozenMachine : MachineBehavior
  targetMachineCount : Int
deriving Repr

/-- `ArbitratorSpawner.CreateExecutionBackend(ctx, wasmModuleRoot, input)`
together with its clone accounting. The loader result stands for
`machineLoader.GetZeroStepMachine(ctx, wasmModuleRoot)`. On loader success
the base machine is cloned, the entry is loaded into the clone, and on
success the clone is frozen and handed to the backend constructor. The
error path after cloning returns without destroying or freezing the
clone. -/
def ArbitratorSpawner.CreateExecutionBackend (loader : Except GoErr ArbMachineModel)
    (input : ValidationInput) (targetMachineCount : Int) :
    (Option ExecutionChallengeBackend × Option GoErr) × CloneLedger :=
  match loader with
  | .error e => ((none, some e), ⟨0, 0, 0⟩)
  | .ok initialFrozenMachine =>
    match (loadEntryToMachine initialFrozenMachine.loadOracle input).2 with
    | some e => ((none, some e), ⟨1, 0, 0⟩)
    | none =>
      ((some { frozenMachine := initialFrozenMachine.behavior
               targetMachineCount := targetMachineCount }, none), ⟨1, 0, 1⟩)

/-! ## Artifact export: the preimage stream -/

/-- The 8-byte buffer `binary.LittleEndian.PutUint64` fills for a length
value: byte `i` is bits `8i .. 8i+7`. -/
def putUint64LE (n : Nat) : List Nat :=
  (List.range 8).map fun i => n / 256 ^ i % 256

/-- The byte stream `WriteToFile` emits into `preimages.bin`: for each
preimage entry in the mapping iteration order, the 8-byte little-endian
length of the data followed by the data bytes, and nothing else. -/
def writePreimages : List (Hash × Bytes) → List Nat
  | [] => []
  | (_, data) :: rest => putUint64LE data.length ++ data ++ writePreimages rest

/-- Little-endian decoding of a byte list, to state that the length prefix
is a faithful 64-bit little-endian encoding. -/
def uint64FromLE (bs : List Nat) : Nat :=
  bs.foldr (fun b acc => acc * 256 + b) 0

/-! ## Spec-side feed sequence and concrete sample values -/

/-- Written from the spec for comparison with the code-side trace: the full
planned machine-operation sequence — install the resolver, set the start
state, "feed each batch message in input order", then "if a delayed message
is present, feed it after all batch messages". -/
def specPlannedOps (entry : ValidationInput) : List MachOp :=
  MachOp.setPreimageResolver :: MachOp.setGlobalState entry.StartState ::
    ((entry.BatchInfo.map fun b => MachOp.addSequencerInboxMessage b.Number b.Data) ++
      (if entry.HasDelayedMsg then
        [MachOp.addDelayedInboxMessage entry.DelayedMsgNr entry.DelayedMsg] else []))

/-- A minimal concrete validation input, used to instantiate theorems. -/
def emptyEntry : ValidationInput :=
  { Id := 0, StartState := GoGlobalState.zero, BatchInfo := [], HasDelayedMsg := false,
    DelayedMsgNr := 0, DelayedMsg := [], Preimages := [] }

/-- An oracle on which every load operation succeeds. -/
def trivialOracle : LoadOracle := fun _ => none

/-- An oracle on which every load operation fails. -/
def failingOracle : LoadOracle := fun _ => some (.new "bad entry")

/-- A machine whose loading succeeds and which halts cleanly at a sample
state. -/
def sampleMachine : ArbMachineModel :=
  { loadOracle := trivialOracle, behavior := .halted false ⟨3, 1, 2⟩ }

/-- A machine whose loading fails at the first operation. -/
def failingMachine : ArbMachineModel :=
  { loadOracle := failingOracle, behavior := .halted false GoGlobalState.zero }

/-! ## Theorems -/

/-- C1: a `valRun` future answers `Result()` with the zero state and the
`NotReady` error while unresolved (in particular right after `NewvalRun`);
resolution by the producing task through `consumeResult` sets readiness, the
transition is irreversible under every modelled operation, and every
`Result()` read after resolution returns exactly the stored
`(state, error)` pair. -/
theorem C1_future_one_shot_result
    (r : valRun) (root : Hash) (res : GoGlobalState) (err : Option GoErr)
    (hpending : r.marker.Ready = false) :
    r.Result = (GoGlobalState.zero, some ErrNotReady) ∧
    (NewvalRun root).Result = (GoGlobalState.zero, some ErrNotReady) ∧
    (r.consumeResult res err).marker.Ready = true ∧
    (r.consumeResult res err).Result = (res, err) ∧
    (∀ r2 : valRun, r2.marker.Ready = true → r2.Result = (r2.result, r2.marker.err)) ∧
    (∀ (r2 : valRun) (res2 : GoGlobalState) (err2 : Option GoErr),
      r2.marker.Ready = true → (r2.consumeResult res2 err2).marker.Ready = true) := by
  refine ⟨?_, ?_, ?_, ?_, ?_, ?_⟩
  · simp [valRun.Result, hpending]
  · simp [valRun.Result, NewvalRun, newReadyMarker, readyMarker.Ready]
  · simp [valRun.consumeResult, readyMarker.signalReady, readyMarker.Ready]
  · simp [valRun.consumeResult, valRun.Result, readyMarker.signalReady, readyMarker.Ready]
  · intro r2 h2
    simp [valRun.Result, h2]
  · intro r2 res2 err2 _
    simp [valRun.consumeResult, readyMarker.signalReady, readyMarker.Ready]

/-- C1 witness: the theorem instantiated at a fresh run with root 7 and a
concrete resolution. -/
theorem C1_future_one_shot_result_witness :
    (NewvalRun 7).Result = (GoGlobalState.zero, some ErrNotReady) ∧
    ((NewvalRun 7).consumeResult ⟨1, 2, 3⟩ none).Result = (⟨1, 2, 3⟩, none) :=
  ⟨(C1_future_one_shot_result (NewvalRun 7) 7 ⟨1, 2, 3⟩ none (by decide)).1,
   (C1_future_one_shot_result (NewvalRun 7) 7 ⟨1, 2, 3⟩ none (by decide)).2.2.2.1⟩

/-- C10: whenever the native-backend execution reports a non-nil error, its
state component is the zero-value checkpoint, so the resolved future answers
`Result()` with the zero checkpoint paired with that error. -/
theorem C10_error_paths_yield_zero_state
    (loader : Except GoErr ArbMachineModel) (entry : ValidationInput)
    (root : Hash) (e : GoErr)
    (herr : (ArbitratorSpawner.execute loader entry).2 = some e) :
    (ArbitratorSpawner.execute loader entry).1 = GoGlobalState.zero ∧
    ((NewvalRun root).consumeResult (ArbitratorSpawner.execute loader entry).1
        (ArbitratorSpawner.execute loader entry).2).Result
      = (GoGlobalState.zero, some e) := by
  have h1 : (ArbitratorSpawner.execute loader entry).1 = GoGlobalState.zero := by
    unfold ArbitratorSpawner.execute ArbitratorSpawner.executeWithLedger at herr ⊢
    cases loader with
    | error e2 => simp
    | ok m =>
      cases hl : (loadEntryToMachine m.loadOracle entry).2 with
      | some e2 => simp [hl]
      | none =>
        cases hr : runLoop m.behavior with
        | error e2 => simp [hl, hr]
        | ok gs => simp [hl, hr] at herr
  refine ⟨h1, ?_⟩
  simp [valRun.consumeResult, valRun.Result, readyMarker.signalReady, readyMarker.Ready,
    h1, herr]

/-- C10 witness: the theorem instantiated at a failing loader. -/
theorem C10_error_paths_yield_zero_state_witness :
    (ArbitratorSpawner.execute (.error (.new "boom")) emptyEntry).1 = GoGlobalState.zero ∧
    ((NewvalRun 7).consumeResult
        (ArbitratorSpawner.execute (.error (.new "boom")) emptyEntry).1
        (ArbitratorSpawner.execute (.error (.new "boom")) emptyEntry).2).Result
      = (GoGlobalState.zero, some (.wrap "unabled to get WASM machine" (.new "boom"))) :=
  C10_error_paths_yield_zero_state (.error (.new "boom")) emptyEntry 7
    (.wrap "unabled to get WASM machine" (.new "boom")) rfl

/-- C3: on both spawner backends `Launch` returns synchronously with a run
that is still unresolved (so the call itself never fails), the background
resolution delivers exactly the `(state, error)` pair of the backend
execution through the future, and in particular a loader failure arrives
through the future wrapped with its stage context rather than
synchronously. -/
theorem C3_launch_never_fails_synchronously
    (count : Int) (aloader : Except GoErr ArbMachineModel)
    (jloader : Except GoErr JitMachineModel)
    (entry : ValidationInput) (root : Hash) :
    (ArbitratorSpawner.Launch count aloader entry root).run = NewvalRun root ∧
    (ArbitratorSpawner.Launch count aloader entry root).run.Result
      = (GoGlobalState.zero, some ErrNotReady) ∧
    (ArbitratorSpawner.Launch count aloader entry root).run.marker.Ready = false ∧
    (ArbitratorSpawner.Launch count aloader entry root).resolvedRun.Result
      = ArbitratorSpawner.execute aloader entry ∧
    (JitSpawner.Launch count jloader entry root).run = NewvalRun root ∧
    (JitSpawner.Launch count jloader entry root).run.Result
      = (GoGlobalState.zero, some ErrNotReady) ∧
    (JitSpawner.Launch count jloader entry root).run.marker.Ready = false ∧
    (JitSpawner.Launch count jloader entry root).resolvedRun.Result
      = JitSpawner.execute jloader entry ∧
    (∀ e : GoErr, aloader = .error e →
      (ArbitratorSpawner.Launch count aloader entry root).resolvedRun.Result
        = (GoGlobalState.zero, some (.wrap "unabled to get WASM machine" e))) ∧
    (∀ e : GoErr, jloader = .error e →
      (JitSpawner.Launch count jloader entry root).resolvedRun.Result
        = (GoGlobalState.zero, some (.wrap "unabled to get WASM machine" e))) := by
  refine ⟨rfl, ?_, ?_, ?_, rfl, ?_, ?_, ?_, ?_, ?_⟩
  · simp [ArbitratorSpawner.Launch, valRun.Result, NewvalRun, newReadyMarker,
      readyMarker.Ready]
  · simp [ArbitratorSpawner.Launch, NewvalRun, newReadyMarker, readyMarker.Ready]
  · simp [ArbitratorSpawner.Launch, valRun.consumeResult, valRun.Result,
      readyMarker.signalReady, readyMarker.Ready]
  · simp [JitSpawner.Launch, valRun.Result, NewvalRun, newReadyMarker, readyMarker.Ready]
  · simp [JitSpawner.Launch, NewvalRun, newReadyMarker, readyMarker.Ready]
  · simp [JitSpawner.Launch, valRun.consumeResult, valRun.Result,
      readyMarker.signalReady, readyMarker.Ready]
  · intro e he
    subst he
    simp [ArbitratorSpawner.Launch, valRun.consumeResult, valRun.Result,
      readyMarker.signalReady, readyMarker.Ready, ArbitratorSpawner.execute,
      ArbitratorSpawner.executeWithLedger]
  · intro e he
    subst he
    simp [JitSpawner.Launch, valRun.consumeResult, valRun.Result,
      readyMarker.signalReady, readyMarker.Ready, JitSpawner.execute]

/-- C3 witness: the theorem instantiated at failing loaders on both
backends. -/
theorem C3_launch_never_fails_synchronously_witness :
    (ArbitratorSpawner.Launch 0 (.error (.new "boom")) emptyEntry 7).run.Result
      = (GoGlobalState.zero, some ErrNotReady) ∧
    (ArbitratorSpawner.Launch 0 (.error (.new "boom")) emptyEntry 7).resolvedRun.Result
      = (GoGlobalState.zero, some (.wrap "unabled to get WASM machine" (.new "boom"))) ∧
    (JitSpawner.Launch 0 (.error (.new "boom")) emptyEntry 7).resolvedRun.Result
      = (GoGlobalState.zero, some (.wrap "unabled to get WASM machine" (.new "boom"))) :=
  ⟨(C3_launch_never_fails_synchronously 0 (.error (.new "boom")) (.error (.new "boom"))
      emptyEntry 7).2.1,
   (C3_launch_never_fails_synchronously 0 (.error (.new "boom")) (.error (.new "boom"))
      emptyEntry 7).2.2.2.2.2.2.2.2.1 (.new "boom") rfl,
   (C3_launch_never_fails_synchronously 0 (.error (.new "boom")) (.error (.new "boom"))
      emptyEntry 7).2.2.2.2.2.2.2.2.2 (.new "boom") rfl⟩

/-- C2: after a successful load the execution loop terminates in exactly one
of three ways, according to the terminal shape of the machine behavior:
a clean halt returns the final global state with nil error; a halt in the
errored state returns the machine-fault error; a failing stepping call
aborts with the wrapped stepping error. Moreover `execute` returns exactly
the loop outcome in that case. -/
theorem C2_loop_trichotomy
    (b : MachineBehavior) (m : ArbMachineModel) (entry : ValidationInput)
    (hload : (loadEntryToMachine m.loadOracle entry).2 = none) :
    ((∃ gs, b.terminal = .halted false gs ∧ runLoop b = .ok gs) ∨
     (∃ gs, b.terminal = .halted true gs ∧
        runLoop b = .error (.new "machine entered errored state during attempted validation")) ∨
     (∃ e, b.terminal = .stepFails e ∧
        runLoop b = .error (.wrap "machine execution failed with error" e))) ∧
    (ArbitratorSpawner.execute (.ok m) entry =
      match runLoop m.behavior with
      | .ok gs => (gs, none)
      | .error e => (GoGlobalState.zero, some e)) := by
  constructor
  · induction b with
    | halted isErrored gs =>
      cases isErrored with
      | false => exact .inl ⟨gs, rfl, by simp [runLoop]⟩
      | true => exact .inr (.inl ⟨gs, rfl, by simp [runLoop]⟩)
    | stepFails e => exact .inr (.inr ⟨e, rfl, by simp [runLoop]⟩)
    | stepsTo next ih =>
      have ht : (MachineBehavior.stepsTo next).terminal = next.terminal := by
        simp [MachineBehavior.terminal]
      have hr : runLoop (.stepsTo next) = runLoop next := by
        simp [runLoop]
      rw [ht, hr]
      exact ih
  · unfold ArbitratorSpawner.execute ArbitratorSpawner.executeWithLedger
    cases hr : runLoop m.behavior with
    | error e => simp [hload, hr]
    | ok gs => simp [hload, hr]

/-- C2 witness: the theorem instantiated at a machine that steps once and
halts cleanly, under an all-success load oracle. -/
theorem C2_loop_trichotomy_witness :
    ((∃ gs, (MachineBehavior.stepsTo (.halted false ⟨3, 1, 2⟩)).terminal
          = .halted false gs ∧
        runLoop (MachineBehavior.stepsTo (.halted false ⟨3, 1, 2⟩)) = .ok gs) ∨
     (∃ gs, (MachineBehavior.stepsTo (.halted false ⟨3, 1, 2⟩)).terminal
          = .halted true gs ∧
        runLoop (MachineBehavior.stepsTo (.halted false ⟨3, 1, 2⟩))
          = .error (.new "machine entered errored state during attempted validation")) ∨
     (∃ e, (MachineBehavior.stepsTo (.halted false ⟨3, 1, 2⟩)).terminal = .stepFails e ∧
        runLoop (MachineBehavior.stepsTo (.halted false ⟨3, 1, 2⟩))
          = .error (.wrap "machine execution failed with error" e))) ∧
    (ArbitratorSpawner.execute (.ok sampleMachine) emptyEntry =
      match runLoop sampleMachine.behavior with
      | .ok gs => (gs, none)
      | .error e => (GoGlobalState.zero, some e)) :=
  C2_loop_trichotomy (.stepsTo (.halted false ⟨3, 1, 2⟩)) sampleMachine emptyEntry rfl

/-- The batch-feeding loop emits a prefix of the fully-in-order sequence of
add-sequencer-message operations. -/
theorem feedBatches_ops_prefix (oracle : LoadOracle) (bs : List BatchInfo) :
    ∃ t, (feedBatches oracle bs).1 ++ t
      = bs.map fun b => MachOp.addSequencerInboxMessage b.Number b.Data := by
  induction bs with
  | nil => exact ⟨[], rfl⟩
  | cons b rest ih =>
    cases h : oracle (MachOp.addSequencerInboxMessage b.Number b.Data) with
    | some e =>
      refine ⟨rest.map fun b2 => MachOp.addSequencerInboxMessage b2.Number b2.Data, ?_⟩
      simp [feedBatches, h]
    | none =>
      obtain ⟨t, ht⟩ := ih
      refine ⟨t, ?_⟩
      simp [feedBatches, h, ht]

/-- On a fully successful batch feed, the emitted operations are exactly the
add-sequencer-message operations in input order. -/
theorem feedBatches_ops_of_ok (oracle : LoadOracle) (bs : List BatchInfo)
    (h : (feedBatches oracle bs).2 = none) :
    (feedBatches oracle bs).1
      = bs.map fun b => MachOp.addSequencerInboxMessage b.Number b.Data := by
  induction bs with
  | nil => rfl
  | cons b rest ih =>
    cases hb : oracle (MachOp.addSequencerInboxMessage b.Number b.Data) with
    | some e => simp [feedBatches, hb] at h
    | none =>
      have h2 : (feedBatches oracle rest).2 = none := by
        simpa [feedBatches, hb] using h
      simp [feedBatches, hb, ih h2]

/-- The load-phase trace is always a prefix of the spec-side planned
sequence: operations happen in the planned order and an aborted load only
truncates the sequence. -/
theorem loadEntry_ops_prefix (oracle : LoadOracle) (entry : ValidationInput) :
    ∃ t, (loadEntryToMachine oracle entry).1 ++ t = specPlannedOps entry := by
  unfold loadEntryToMachine specPlannedOps
  cases h1 : oracle .setPreimageResolver with
  | some e =>
    refine ⟨MachOp.setGlobalState entry.StartState ::
      ((entry.BatchInfo.map fun b => MachOp.addSequencerInboxMessage b.Number b.Data) ++
        (if entry.HasDelayedMsg then
          [MachOp.addDelayedInboxMessage entry.DelayedMsgNr entry.DelayedMsg] else [])), ?_⟩
    simp [h1]
  | none =>
    cases h2 : oracle (.setGlobalState entry.StartState) with
    | some e =>
      refine ⟨(entry.BatchInfo.map fun b => MachOp.addSequencerInboxMessage b.Number b.Data) ++
        (if entry.HasDelayedMsg then
          [MachOp.addDelayedInboxMessage entry.DelayedMsgNr entry.DelayedMsg] else []), ?_⟩
      simp [h1, h2]
    | none =>
      obtain ⟨t, ht⟩ := feedBatches_ops_prefix oracle entry.BatchInfo
      cases h3 : (feedBatches oracle entry.BatchInfo).2 with
      | some e =>
        refine ⟨t ++ (if entry.HasDelayedMsg then
          [MachOp.addDelayedInboxMessage entry.DelayedMsgNr entry.DelayedMsg] else []), ?_⟩
        simp [h3, ← ht]
      | none =>
        have hfull := feedBatches_ops_of_ok oracle entry.BatchInfo h3
        cases hd : entry.HasDelayedMsg with
        | false => exact ⟨[], by simp [h3, hd, hfull]⟩
        | true =>
          cases h4 : oracle (.addDelayedInboxMessage entry.DelayedMsgNr entry.DelayedMsg) with
          | some e => exact ⟨[], by simp [h3, hd, h4, hfull]⟩
          | none => exact ⟨[], by simp [h3, hd, h4, hfull]⟩

/-- On a fully successful load, the trace is exactly the planned sequence. -/
theorem loadEntry_ops_of_ok (oracle : LoadOracle) (entry : ValidationInput)
    (h : (loadEntryToMachine oracle entry).2 = none) :
    (loadEntryToMachine oracle entry).1 = specPlannedOps entry := by
  unfold loadEntryToMachine specPlannedOps
  unfold loadEntryToMachine at h
  cases h1 : oracle .setPreimageResolver with
  | some e => simp [h1] at h
  | none =>
    cases h2 : oracle (.setGlobalState entry.StartState) with
    | some e => simp [h1, h2] at h
    | none =>
      cases h3 : (feedBatches oracle entry.BatchInfo).2 with
      | some e => simp [h1, h2, h3] at h
      | none =>
        have hfull := feedBatches_ops_of_ok oracle entry.BatchInfo h3
        cases hd : entry.HasDelayedMsg with
        | false => simp [h3, hd, hfull]
        | true =>
          cases h4 : oracle (.addDelayedInboxMessage entry.DelayedMsgNr entry.DelayedMsg) with
          | some e => simp [h1, h2, h3, hd, h4] at h
          | none => simp [h3, hd, h4, hfull]

/-- The planned sequence contains a delayed-message operation only when the
entry carries a delayed message. -/
theorem specPlannedOps_no_delayed (entry : ValidationInput)
    (hd : entry.HasDelayedMsg = false) (n : Nat) (d : Bytes) :
    MachOp.addDelayedInboxMessage n d ∉ specPlannedOps entry := by
  intro hmem
  simp [specPlannedOps, hd] at hmem

/-- C5: when the load succeeds, the invoked operation trace is exactly the
spec-side planned sequence — batch messages in input order, the delayed feed
present exactly when `HasDelayedMsg` holds and placed after all batch
messages; with `HasDelayedMsg = false` the delayed feed is never invoked
under any oracle; and under any oracle the trace is a prefix of the planned
sequence, so a feed failure aborts the remainder immediately. -/
theorem C5_feed_order_and_delayed_guard (oracle : LoadOracle) (entry : ValidationInput)
    (hok : (loadEntryToMachine oracle entry).2 = none) :
    (loadEntryToMachine oracle entry).1 = specPlannedOps entry ∧
    (entry.HasDelayedMsg = false →
      ∀ (oracle2 : LoadOracle) (n : Nat) (d : Bytes),
        MachOp.addDelayedInboxMessage n d ∉ (loadEntryToMachine oracle2 entry).1) ∧
    (∀ oracle2 : LoadOracle,
      ∃ t, (loadEntryToMachine oracle2 entry).1 ++ t = specPlannedOps entry) := by
  refine ⟨loadEntry_ops_of_ok oracle entry hok, ?_, fun oracle2 => loadEntry_ops_prefix oracle2 entry⟩
  intro hd oracle2 n d hmem
  obtain ⟨t, ht⟩ := loadEntry_ops_prefix oracle2 entry
  exact specPlannedOps_no_delayed entry hd n d
    (ht ▸ List.mem_append_left t hmem)

/-- C5 witness: the theorem instantiated at the all-success oracle and an
entry with two batches and no delayed message. -/
theorem C5_feed_order_and_delayed_guard_witness :
    (loadEntryToMachine trivialOracle
        { Id := 1, StartState := ⟨9, 5, 10⟩, BatchInfo := [⟨5, [97]⟩, ⟨6, [98]⟩],
          HasDelayedMsg := false, DelayedMsgNr := 0, DelayedMsg := [],
          Preimages := [] }).1
      = specPlannedOps
          { Id := 1, StartState := ⟨9, 5, 10⟩, BatchInfo := [⟨5, [97]⟩, ⟨6, [98]⟩],
            HasDelayedMsg := false, DelayedMsgNr := 0, DelayedMsg := [],
            Preimages := [] } ∧
    MachOp.addDelayedInboxMessage 0 [] ∉
      (loadEntryToMachine failingOracle
          { Id := 1, StartState := ⟨9, 5, 10⟩, BatchInfo := [⟨5, [97]⟩, ⟨6, [98]⟩],
            HasDelayedMsg := false, DelayedMsgNr := 0, DelayedMsg := [],
            Preimages := [] }).1 :=
  ⟨(C5_feed_order_and_delayed_guard trivialOracle
      { Id := 1, StartState := ⟨9, 5, 10⟩, BatchInfo := [⟨5, [97]⟩, ⟨6, [98]⟩],
        HasDelayedMsg := false, DelayedMsgNr := 0, DelayedMsg := [],
        Preimages := [] } rfl).1,
   (C5_feed_order_and_delayed_guard trivialOracle
      { Id := 1, StartState := ⟨9, 5, 10⟩, BatchInfo := [⟨5, [97]⟩, ⟨6, [98]⟩],
        HasDelayedMsg := false, DelayedMsgNr := 0, DelayedMsg := [],
        Preimages := [] } rfl).2.1 rfl failingOracle 0 []⟩

/-- C6 at the failing input: when the entry-loading step fails inside
`CreateExecutionBackend`, the clone that was just created is neither
destroyed nor frozen — it leaks — while `execute` balances its clone on
every path (its deferred destroy). The code therefore violates the
destroy-on-every-exit-path rule on the backend-constructor error exit. -/
theorem C6_backend_error_exit_leaks_clone :
    (ArbitratorSpawner.CreateExecutionBackend (.ok failingMachine) emptyEntry 4).2
      = ⟨1, 0, 0⟩ ∧
    (ArbitratorSpawner.CreateExecutionBackend (.ok failingMachine) emptyEntry 4).1.2
      = some (.new "bad entry") ∧
    (∀ (loader : Except GoErr ArbMachineModel) (entry : ValidationInput),
      (ArbitratorSpawner.executeWithLedger loader entry).2.destroyed
          + (ArbitratorSpawner.executeWithLedger loader entry).2.frozen
        = (ArbitratorSpawner.executeWithLedger loader entry).2.created) := by
  refine ⟨rfl, rfl, ?_⟩
  intro loader entry
  unfold ArbitratorSpawner.executeWithLedger
  cases loader with
  | error e => rfl
  | ok m =>
    cases hl : (loadEntryToMachine m.loadOracle entry).2 with
    | some e => simp [hl]
    | none =>
      cases hr : runLoop m.behavior with
      | error e => simp [hl, hr]
      | ok gs => simp [hl, hr]

/-- C7 counterexample: starting the JIT spawner a second time is not a
no-op — the unconditional lifecycle start rebinds the background-task
context, changing the spawner state. -/
theorem C7_jit_second_start_changes_state :
    JitSpawner.Start (JitSpawner.Start ⟨false, none⟩ 0) 1
      ≠ JitSpawner.Start ⟨false, none⟩ 0 := by
  decide

/-- C7 amended: `ArbitratorSpawner.Start` is idempotent — a no-op whenever
the spawner is already started, and in particular a second start after a
first changes nothing — whereas `JitSpawner.Start` invokes the lifecycle
start unconditionally and is not a no-op on an already-started spawner. -/
theorem C7_start_idempotent_native_only
    (s : StopWaiter) (c c2 : Nat) (h : s.Started = true) :
    ArbitratorSpawner.Start s c = s ∧
    ArbitratorSpawner.Start (ArbitratorSpawner.Start s c2) c
      = ArbitratorSpawner.Start s c2 ∧
    (∃ (s2 : StopWaiter) (k : Nat), s2.Started = true ∧ JitSpawner.Start s2 k ≠ s2) := by
  refine ⟨?_, ?_, ⟨⟨true, some 0⟩, 1, rfl, by decide⟩⟩
  · simp [ArbitratorSpawner.Start, h]
  · by_cases hs : s.started = true
    · simp [ArbitratorSpawner.Start, StopWaiter.Started, StopWaiter.start, hs]
    · simp [ArbitratorSpawner.Start, StopWaiter.Started, StopWaiter.start, hs]

/-- C7 witness: the amended theorem instantiated at an already-started
spawner. -/
theorem C7_start_idempotent_native_only_witness :
    ArbitratorSpawner.Start ⟨true, some 5⟩ 0 = ⟨true, some 5⟩ ∧
    ArbitratorSpawner.Start (ArbitratorSpawner.Start ⟨true, some 5⟩ 1) 0
      = ArbitratorSpawner.Start ⟨true, some 5⟩ 1 :=
  ⟨(C7_start_idempotent_native_only ⟨true, some 5⟩ 0 1 rfl).1,
   (C7_start_idempotent_native_only ⟨true, some 5⟩ 0 1 rfl).2.1⟩

/-- C8: while the ready channel is still open, every possible `WaitReady`
outcome comes from the caller context being done and equals the caller
cancellation error; the wait leaves the marker untouched, so a run whose
marker is still unset keeps failing `Result()` with `NotReady`; and the
underlying execution is unaffected — a later resolution still delivers its
`(state, error)` pair. -/
theorem C8_waitready_cancellation_leaves_unresolved
    (d : readyMarker) (ctx : CtxState) (out : Option GoErr)
    (hopen : d.chanClosed = false)
    (hout : WaitReadyOutcome d ctx out) :
    (ctx.done = true ∧ out = some ctx.err) ∧
    (∀ r : valRun, r.marker = d → d.boolReady = false →
      r.Result = (GoGlobalState.zero, some ErrNotReady)) ∧
    (∀ (r : valRun) (res : GoGlobalState) (err : Option GoErr),
      (r.consumeResult res err).Result = (res, err)) := by
  refine ⟨?_, ?_, ?_⟩
  · cases hout with
    | viaReady hc => simp [hopen] at hc
    | viaCtx hd => exact ⟨hd, rfl⟩
  · intro r hr hb
    simp [valRun.Result, readyMarker.Ready, hr, hb]
  · intro r res err
    simp [valRun.consumeResult, valRun.Result, readyMarker.signalReady, readyMarker.Ready]

/-- C8 witness: the theorem instantiated at a fresh marker and a cancelled
caller context. -/
theorem C8_waitready_cancellation_leaves_unresolved_witness :
    (CtxState.done ⟨true, .new "context canceled"⟩ = true ∧
      some (CtxState.err ⟨true, .new "context canceled"⟩)
        = some (GoErr.new "context canceled")) ∧
    (NewvalRun 7).Result = (GoGlobalState.zero, some ErrNotReady) :=
  ⟨⟨(C8_waitready_cancellation_leaves_unresolved newReadyMarker
        ⟨true, .new "context canceled"⟩ (some (.new "context canceled")) rfl
        (.viaCtx rfl)).1.1, rfl⟩,
   (C8_waitready_cancellation_leaves_unresolved newReadyMarker
        ⟨true, .new "context canceled"⟩ (some (.new "context canceled")) rfl
        (.viaCtx rfl)).2.1 (NewvalRun 7) rfl rfl⟩

/-- The 8-byte length buffer decodes back to the length modulo 2 to the
64th, so it is a faithful little-endian 64-bit encoding. -/
theorem uint64FromLE_putUint64LE (n : Nat) :
    uint64FromLE (putUint64LE n) = n % 18446744073709551616 := by
  have h : putUint64LE n
      = [n / 1 % 256, n / 256 % 256, n / 65536 % 256, n / 16777216 % 256,
         n / 4294967296 % 256, n / 1099511627776 % 256,
         n / 281474976710656 % 256, n / 72057594037927936 % 256] := rfl
  rw [h]
  simp only [uint64FromLE, List.foldr]
  omega

/-- C9: the `preimages.bin` stream is exactly the concatenation, one record
per preimage entry in the mapping iteration order, of the 8-byte
little-endian encoding of the entry byte length followed by the entry raw
bytes, with nothing else; the prefix really is 8 bytes long and decodes back
to the length. -/
theorem C9_preimages_bin_is_length_prefixed_records (ps : List (Hash × Bytes)) :
    writePreimages ps
      = (ps.map fun e => putUint64LE e.2.length ++ e.2).flatten ∧
    (∀ n : Nat, (putUint64LE n).length = 8) ∧
    (∀ n : Nat, n < 18446744073709551616 → uint64FromLE (putUint64LE n) = n) := by
  refine ⟨?_, ?_, ?_⟩
  · induction ps with
    | nil => rfl
    | cons p rest ih => simp [writePreimages, ih]
  · intro n
    simp [putUint64LE]
  · intro n hn
    rw [uint64FromLE_putUint64LE]
    omega

/-- C9 witness: the theorem instantiated at a two-entry mapping, including
the concrete stream bytes. -/
theorem C9_preimages_bin_is_length_prefixed_records_witness :
    writePreimages [(5, [97, 98, 99]), (9, [100])]
      = ([(5, [97, 98, 99]), (9, [100])].map
          fun e : Hash × Bytes => putUint64LE e.2.length ++ e.2).flatten ∧
    uint64FromLE (putUint64LE 3) = 3 ∧
    writePreimages [(5, [97, 98, 99]), (9, [100])]
      = [3, 0, 0, 0, 0, 0, 0, 0, 97, 98, 99, 1, 0, 0, 0, 0, 0, 0, 0, 100] :=
  ⟨(C9_preimages_bin_is_length_prefixed_records [(5, [97, 98, 99]), (9, [100])]).1,
   (C9_preimages_bin_is_length_prefixed_records [(5, [97, 98, 99]), (9, [100])]).2.2 3
     (by decide),
   by decide⟩

/-- Int32 wraparound is the identity on the int32 range. -/
theorem wrap32_eq_of_mem_range (x : Int) (h1 : -2147483648 ≤ x) (h2 : x < 2147483648) :
    wrap32 x = x := by
  unfold wrap32
  omega

/-- N launch increments starting in range add exactly N. -/
theorem iterIncrement_eq (c : Int) (n : Nat) (h1 : -2147483648 ≤ c)
    (h2 : c + n < 2147483648) :
    iterIncrement c n = c + n := by
  induction n generalizing c with
  | zero => simp [iterIncrement]
  | succ k ih =>
    have ha : addInt32 c 1 = c + 1 := by
      unfold addInt32 wrap32
      omega
    rw [iterIncrement, ha, ih (c + 1) (by omega) (by push_cast at h2; omega)]
    push_cast
    ring

/-- N completion decrements starting in range subtract exactly N. -/
theorem iterDecrement_eq (c : Int) (n : Nat) (h1 : -2147483648 ≤ c - n)
    (h2 : c < 2147483648) :
    iterDecrement c n = c - n := by
  induction n generalizing c with
  | zero => simp [iterDecrement]
  | succ k ih =>
    have ha : addInt32 c (-1) = c - 1 := by
      unfold addInt32 wrap32
      push_cast at h1
      omega
    rw [iterDecrement, ha, ih (c - 1) (by push_cast at h1; omega) (by omega)]
    push_cast
    ring

/-- C4: each launch raises the in-flight counter by exactly one and each
completed background execution lowers it by exactly one, on both backends;
N launches raise it by N and after the N completions it returns to its
pre-launch value; `Room()` equals the configured limit minus the in-flight
count with the host parallelism substituted for a zero limit, and it can be
negative. -/
theorem C4_room_and_inflight_accounting
    (c : Int) (n : Nat) (h1 : -2147483648 ≤ c) (h2 : c + n < 2147483648) :
    iterIncrement c n = c + n ∧
    iterDecrement (iterIncrement c n) n = c ∧
    (∀ (count : Int) (loader : Except GoErr ArbMachineModel)
        (entry : ValidationInput) (root : Hash),
      (ArbitratorSpawner.Launch count loader entry root).countAfterLaunch
          = addInt32 count 1 ∧
      (ArbitratorSpawner.Launch count loader entry root).countAfterCompletion
          = addInt32 (addInt32 count 1) (-1)) ∧
    (∀ (count : Int) (loader : Except GoErr JitMachineModel)
        (entry : ValidationInput) (root : Hash),
      (JitSpawner.Launch count loader entry root).countAfterLaunch
          = addInt32 count 1 ∧
      (JitSpawner.Launch count loader entry root).countAfterCompletion
          = addInt32 (addInt32 count 1) (-1)) ∧
    (∀ (count : Int) (loader : Except GoErr ArbMachineModel)
        (entry : ValidationInput) (root : Hash),
      -2147483648 ≤ count → count + 1 < 2147483648 →
      (ArbitratorSpawner.Launch count loader entry root).countAfterLaunch = count + 1 ∧
      (ArbitratorSpawner.Launch count loader entry root).countAfterCompletion = count) ∧
    (∀ (config : ArbitratorSpawnerConfig) (numCPU count : Int),
      ArbitratorSpawner.Room config numCPU count
        = (if config.ConcurrentRuns = 0 then numCPU else config.ConcurrentRuns) - count) ∧
    (∀ (config : JitSpawnerConfig) (numCPU count : Int),
      JitSpawner.Room config numCPU count
        = (if config.ConcurrentRuns = 0 then numCPU else config.ConcurrentRuns) - count) ∧
    (∃ (config : ArbitratorSpawnerConfig) (numCPU count : Int),
      0 < numCPU ∧ 0 ≤ count ∧ ArbitratorSpawner.Room config numCPU count < 0) := by
  refine ⟨iterIncrement_eq c n h1 h2, ?_, ?_, ?_, ?_, ?_, ?_, ?_⟩
  · rw [iterIncrement_eq c n h1 h2,
      iterDecrement_eq (c + n) n (by omega) (by omega)]
    ring
  · intro count loader entry root
    exact ⟨rfl, rfl⟩
  · intro count loader entry root
    exact ⟨rfl, rfl⟩
  · intro count loader entry root hc1 hc2
    have ha : addInt32 count 1 = count + 1 := by
      unfold addInt32 wrap32
      omega
    have hb : addInt32 (addInt32 count 1) (-1) = count := by
      unfold addInt32 wrap32
      omega
    exact ⟨ha, by simp [ArbitratorSpawner.Launch, hb]⟩
  · intro config numCPU count
    rfl
  · intro config numCPU count
    rfl
  · exact ⟨⟨2, "./target/output", 4⟩, 4, 5, by norm_num, by norm_num,
      by norm_num [ArbitratorSpawner.Room]⟩

/-- C4 witness: the theorem instantiated at a zero counter and three
launches. -/
theorem C4_room_and_inflight_accounting_witness :
    iterIncrement 0 3 = 0 + ((3 : Nat) : Int) ∧
    iterDecrement (iterIncrement 0 3) 3 = 0 :=
  ⟨(C4_room_and_inflight_accounting 0 3 (by decide) (by decide)).1,
   (C4_room_and_inflight_accounting 0 3 (by decide) (by decide)).2.1⟩

end NitroValidator
